import Mathlib

/-!
Shallow embedding of the spotify-dl core: the MP3 track sink
(src/file_sink_mp3.rs) and the download loop with existence guard and
catalog reconciler (src/main.rs).  Rust strings are modelled as lists of
characters, byte buffers as lists of naturals, i16 samples as integers.
External collaborators (the LAME codec, the filesystem, the sample
converter) are passed in explicitly as oracles or state so that the
control flow of the source functions can be reproduced faithfully.
-/

/-- Rust strings and OsStr file names, modelled as lists of characters. -/
abbrev Str := List Char

/-- Position (from the front) of the last dot of a file name, if any. -/
def lastDotPos (name : Str) : Option Nat :=
  match name.reverse.findIdx? (fun c => c == '.') with
  | none => none
  | some i => some (name.length - 1 - i)

/-- Rust Path::file_stem on a plain file name: the whole name when there is
no dot or when the only dot is the leading character; otherwise the part
before the last dot. -/
def file_stem (name : Str) : Str :=
  match lastDotPos name with
  | none => name
  | some 0 => name
  | some j => name.take j

/-- Rust Path::extension on a plain file name: the part after the last dot,
none when there is no dot or the only dot is the leading character. -/
def path_extension (name : Str) : Option Str :=
  match lastDotPos name with
  | none => none
  | some 0 => none
  | some j => some (name.drop (j + 1))

/-- The invalid_chars array of make_filename_compatible (main.rs line 80);
codes 39, 34 and 92 are the single quote, the double quote and the
backslash. -/
def invalidChars : Str :=
  ['<', '>', ':', Char.ofNat 39, Char.ofNat 34, '/', Char.ofNat 92, '|', '?', '*']

/-- Rust char::is_ascii. -/
def isAsciiChar (c : Char) : Bool := c.toNat ≤ 127

/-- Rust char::is_control: the Unicode Cc category. -/
def isControlChar (c : Char) : Bool :=
  c.toNat ≤ 31 || (127 ≤ c.toNat && c.toNat ≤ 159)

/-- Rust char::len_utf8. -/
def lenUtf8 (c : Char) : Nat :=
  if c.toNat < 128 then 1
  else if c.toNat < 2048 then 2
  else if c.toNat < 65536 then 3
  else 4

/-- main.rs make_filename_compatible: keep a character exactly when it is not
in invalid_chars, is ASCII, is not a control character and has UTF-8
length 1 (the source pushes such characters onto a fresh string, which is a
filter of the input). -/
def make_filename_compatible (filename : Str) : Str :=
  filename.filter (fun c =>
    !(invalidChars.contains c) && isAsciiChar c && !(isControlChar c)
      && (lenUtf8 c == 1))

/-- main.rs TrackMetadata. -/
structure TrackMetadata where
  artists : List Str
  track_name : Str
  album : Str
deriving DecidableEq

/-- Rust slice join with a separator, used for artists.join of a comma and a
space in FileSinkMP3::stop. -/
def joinSep (sep : Str) : List Str → Str
  | [] => []
  | [x] => x
  | x :: xs => x ++ sep ++ joinSep sep xs

/-- The mp3lame Id3Tag record filled in by FileSinkMP3::stop. -/
structure Id3Tag where
  title : Str
  artist : Str
  album : Str
  year : Str
  comment : Str
deriving DecidableEq

/-- The LAME builder configuration assembled in FileSinkMP3::stop before the
build call: channel count, sample rate, bitrate in kbps, quality (the LAME
Quality::Best variant is 0) and the optional id3 tag. -/
structure EncoderConfig where
  numChannels : Nat
  sampleRate : Nat
  brateKbps : Nat
  quality : Nat
  id3 : Option Id3Tag
deriving DecidableEq

/-- file_sink_mp3.rs FileSinkMP3: destination path, interleaved i16 sample
buffer, optional metadata and the stored compression selection. -/
structure FileSinkMP3 where
  sink : Str
  content : List Int
  metadata : Option TrackMetadata
  compression : Nat
deriving DecidableEq

/-- The distinct panic sites of the embedded code, one constructor per
expect or unwrap in the source, in source order. -/
inductive PanicMsg where
  | noPath
  | createLameBuilder
  | setChannels
  | setSampleRate
  | setBrate
  | setQuality
  | initLameEncoder
  | toEncode
  | toFlush
  | packetSamplesUnwrap
deriving DecidableEq

/-- Identifier for an underlying I/O error cause (the source renders it with
to_string; the rendering is abstracted, the cause itself is carried). -/
abbrev IOCause := Nat

/-- librespot SinkError; the source only ever constructs the OnWrite
variant. -/
inductive SinkError where
  | connectionRefused : IOCause → SinkError
  | notConnected : IOCause → SinkError
  | invalidParams : IOCause → SinkError
  | onWrite : IOCause → SinkError
deriving DecidableEq

/-- Outcome of a Rust call: a returned Ok value, a returned Err value, or a
panic (an expect or unwrap that fired). -/
inductive RustResult (α : Type) where
  | ok : α → RustResult α
  | err : SinkError → RustResult α
  | panicked : PanicMsg → RustResult α
deriving DecidableEq

/-- The destination filesystem: an association of paths to byte contents. -/
abbrev FS := List (Str × List Nat)

/-- Contents at a path, if a file is there. -/
def lookupFile : FS → Str → Option (List Nat)
  | [], _ => none
  | (q, d) :: rest, p => if q = p then some d else lookupFile rest p

/-- Replace or create the file at a path with the given full contents. -/
def setFile : FS → Str → List Nat → FS
  | [], p, d => [(p, d)]
  | (q, old) :: rest, p, d =>
      if q = p then (p, d) :: rest else (q, old) :: setFile rest p d

/-- Modelled from the spec: the atomicwrites crate used at
file_sink_mp3.rs line 88 (AtomicFile with OverwriteBehavior::AllowOverwrite)
is not part of this repository; per the spec it writes the whole buffer to a
temporary file and atomically renames it over the destination, so on success
the destination holds exactly the buffer and on an I/O failure the
filesystem is left unchanged and the underlying cause is reported. -/
def atomicWrite (fs : FS) (path : Str) (data : List Nat) (io : Option IOCause) :
    Except IOCause FS :=
  match io with
  | some e => Except.error e
  | none => Except.ok (setFile fs path data)

/-- Rust Iterator::step_by(2) over a list: every other element starting at
the first. -/
def stepBy2 {α : Type} : List α → List α
  | [] => []
  | [a] => [a]
  | a :: _ :: rest => a :: stepBy2 rest

/-- file_sink_mp3.rs lines 68 and 69: left channel is step_by(2) of the
content, right channel is skip(1) then step_by(2). -/
def splitChannels (content : List Int) : List Int × List Int :=
  (stepBy2 content, stepBy2 (content.drop 1))

/-- FileSinkMP3 Open::open: uses the supplied path and panics when none is
supplied; the buffer starts empty, metadata absent, compression 4. -/
def FileSinkMP3.openSink (path : Option Str) : RustResult FileSinkMP3 :=
  match path with
  | none => RustResult.panicked PanicMsg.noPath
  | some p => RustResult.ok ⟨p, [], none, 4⟩

/-- FileSinkMP3::add_metadata. -/
def FileSinkMP3.add_metadata (s : FileSinkMP3) (meta : TrackMetadata) : FileSinkMP3 :=
  ⟨s.sink, s.content, some meta, s.compression⟩

/-- FileSinkMP3::set_compression. -/
def FileSinkMP3.set_compression (s : FileSinkMP3) (compression : Nat) : FileSinkMP3 :=
  ⟨s.sink, s.content, s.metadata, compression⟩

/-- The configuration FileSinkMP3::stop hands the LAME builder (lines 48 to
65): 2 channels, 44100 Hz, Bitrate::Kbps192, Quality::Best (0), and the id3
tag built from the stored metadata when present — title from track_name,
artist from the artists joined with a comma and a space, album from album,
year and comment empty. -/
def encoderConfigOf (s : FileSinkMP3) : EncoderConfig :=
  ⟨2, 44100, 192, 0,
    match s.metadata with
    | some meta =>
        some ⟨meta.track_name, joinSep [',', ' '] meta.artists, meta.album, [], []⟩
    | none => none⟩

/-- Oracle for the LAME codec calls made in FileSinkMP3::stop: whether each
builder call succeeds, and the bytes produced by the encode call and by the
no-gap flush (none models a failing call, which the source's expect turns
into a panic). -/
structure MP3Codec where
  builderOk : Bool
  numChannelsOk : Bool
  sampleRateOk : Bool
  brateOk : Bool
  qualityOk : Bool
  buildOk : Bool
  encode : EncoderConfig → List Int → List Int → Option (List Nat)
  flushNoGap : Option (List Nat)

/-- All builder-stage calls of the codec oracle succeed. -/
def allBuildOk (c : MP3Codec) : Bool :=
  c.builderOk && c.numChannelsOk && c.sampleRateOk && c.brateOk
    && c.qualityOk && c.buildOk

/-- FileSinkMP3::stop: configure the codec, split the interleaved buffer
into channels, encode, flush, concatenate the two outputs and commit them
atomically.  Every expect in the source is a panic outcome; a failing
atomic write is returned as SinkError.onWrite carrying the cause.  The
result is the call outcome together with the filesystem afterwards. -/
def FileSinkMP3.stop (s : FileSinkMP3) (c : MP3Codec) (io : Option IOCause)
    (fs : FS) : RustResult Unit × FS :=
  if c.builderOk = false then (RustResult.panicked PanicMsg.createLameBuilder, fs)
  else if c.numChannelsOk = false then (RustResult.panicked PanicMsg.setChannels, fs)
  else if c.sampleRateOk = false then (RustResult.panicked PanicMsg.setSampleRate, fs)
  else if c.brateOk = false then (RustResult.panicked PanicMsg.setBrate, fs)
  else if c.qualityOk = false then (RustResult.panicked PanicMsg.setQuality, fs)
  else if c.buildOk = false then (RustResult.panicked PanicMsg.initLameEncoder, fs)
  else
    match c.encode (encoderConfigOf s) (splitChannels s.content).1
        (splitChannels s.content).2 with
    | none => (RustResult.panicked PanicMsg.toEncode, fs)
    | some encoded =>
      match c.flushNoGap with
      | none => (RustResult.panicked PanicMsg.toFlush, fs)
      | some flushed =>
        match atomicWrite fs s.sink (encoded ++ flushed) io with
        | Except.error e => (RustResult.err (SinkError.onWrite e), fs)
        | Except.ok fs2 => (RustResult.ok (), fs2)

/-- librespot AudioPacket: decoded samples (f64, modelled as rationals) or a
raw passthrough packet of bytes. -/
inductive AudioPacket where
  | samples : List Rat → AudioPacket
  | raw : List Nat → AudioPacket

/-- AudioPacket::samples as used in FileSinkMP3::write: raw packets carry no
samples (the librespot accessor returns an error for them). -/
def AudioPacket.samplesRes : AudioPacket → Option (List Rat)
  | AudioPacket.samples d => some d
  | AudioPacket.raw _ => none

/-- librespot Converter, reduced to the f64-to-s16 conversion the sink
calls; the numeric conversion itself lives outside this repository and is
kept abstract. -/
structure Converter where
  f64_to_s16 : List Rat → List Int

/-- FileSinkMP3::write: convert the packet samples and append them to the
buffer, returning Ok; the unwrap on packet.samples() panics for a raw
packet. -/
def FileSinkMP3.write (s : FileSinkMP3) (packet : AudioPacket) (cv : Converter) :
    RustResult FileSinkMP3 :=
  match packet.samplesRes with
  | none => RustResult.panicked PanicMsg.packetSamplesUnwrap
  | some d =>
      RustResult.ok ⟨s.sink, s.content ++ cv.f64_to_s16 d, s.metadata, s.compression⟩

/-- main.rs lines 166 to 176: does any directory entry have the given stem
(the loop with the early break is an any). -/
def fileExists (entries : List Str) (file_name : Str) : Bool :=
  entries.any (fun e => file_stem e == file_name)

/-- main.rs lines 206 to 210: the fixed audio extension allow-list of the
cleanup pass. -/
def recognizedAudioExt : Option Str → Bool
  | some e =>
      e == ['m', 'p', '3'] || e == ['f', 'l', 'a', 'c']
        || e == ['w', 'a', 'v'] || e == ['o', 'g', 'g']
  | none => false

/-- main.rs lines 203 to 219: an entry is removed exactly when its extension
is in the allow-list and its stem is not among the collected file names
(otherwise the loop continues past it). -/
def shouldDelete (all_files : List Str) (entry : Str) : Bool :=
  recognizedAudioExt (path_extension entry)
    && !(all_files.any (fun s => s == file_stem entry))

/-- The cleanup pass over the destination directory: the entries kept and
the entries deleted. -/
def reconcile (entries : List Str) (all_files : List Str) : List Str × List Str :=
  (entries.filter (fun e => !(shouldDelete all_files e)),
   entries.filter (fun e => shouldDelete all_files e))

/-- The per-track loop of download_tracks over the computed file names: each
track first pushes its stem onto all_files (lines 160 and 161,
unconditionally), then the existence check over the current directory
entries decides skip or download; a download adds the new file name to the
directory.  Returns all_files together with the final directory entries. -/
def processTracks : List Str → List Str → List Str × List Str
  | [], entries => ([], entries)
  | f :: rest, entries =>
    let file_name := file_stem f
    let hasFile := fileExists entries file_name
    let entries2 := if hasFile then entries else entries ++ [f]
    let result := processTracks rest entries2
    (file_name :: result.1, result.2)

/-! Helper lemmas about the channel split. -/

theorem stepBy2_getElem? {α : Type} (l : List α) (i : Nat) :
    (stepBy2 l)[i]? = l[2 * i]? := by
  induction l using stepBy2.induct generalizing i with
  | case1 => simp [stepBy2]
  | case2 a =>
      cases i with
      | zero => simp [stepBy2]
      | succ j => simp [stepBy2, Nat.mul_succ]
  | case3 a b rest ih =>
      cases i with
      | zero => simp [stepBy2]
      | succ j => simp [stepBy2, Nat.mul_succ, ih]

theorem stepBy2_length {α : Type} (l : List α) :
    (stepBy2 l).length = (l.length + 1) / 2 := by
  induction l using stepBy2.induct with
  | case1 => simp [stepBy2]
  | case2 a => simp [stepBy2]
  | case3 a b rest ih => simp [stepBy2, ih]; omega

/-- Claim C3 (corrected): the encoder adapter sends even indices to the left
channel and odd indices to the right channel; but on an odd-length buffer
the trailing sample, which sits at an even index, is placed at the end of
the left channel (left then being one longer than right) rather than being
dropped from both channels. -/
theorem C3_split_even_odd (l : List Int) :
    (∀ i, (splitChannels l).1[i]? = l[2 * i]?) ∧
    (∀ i, (splitChannels l).2[i]? = l[2 * i + 1]?) ∧
    (l.length % 2 = 1 → ∀ x, l.getLast? = some x →
      x ∈ (splitChannels l).1 ∧
      (splitChannels l).1.length = (splitChannels l).2.length + 1) := by
  refine ⟨fun i => stepBy2_getElem? l i, fun i => ?_, fun hodd x hlast => ?_⟩
  · show (stepBy2 (l.drop 1))[i]? = l[2 * i + 1]?
    rw [stepBy2_getElem?, List.getElem?_drop]
    congr 1
    omega
  · constructor
    · have hlen : 1 ≤ l.length := by
        cases l with
        | nil => simp at hodd
        | cons a t => simp
      have hget : l[l.length - 1]? = some x := by
        rwa [← List.getLast?_eq_getElem?]
      have hj : 2 * ((l.length - 1) / 2) = l.length - 1 := by omega
      have : (splitChannels l).1[(l.length - 1) / 2]? = some x := by
        show (stepBy2 l)[(l.length - 1) / 2]? = some x
        rw [stepBy2_getElem?, hj, hget]
      obtain ⟨h1, h2⟩ := List.getElem?_eq_some.mp this
      exact h2 ▸ List.getElem_mem h1
    · show (stepBy2 l).length = (stepBy2 (l.drop 1)).length + 1
      rw [stepBy2_length, stepBy2_length]
      simp
      omega

/-- Claim C3, witness: on the concrete odd buffer [1, 2, 3] the even-index
characterization holds at index 0 and the trailing sample 3 lands in the
left channel. -/
theorem C3_split_even_odd_witness :
    (splitChannels [1, 2, 3]).1[0]? = ([1, 2, 3] : List Int)[2 * 0]? ∧
    (3 : Int) ∈ (splitChannels [1, 2, 3]).1 ∧
    (splitChannels [1, 2, 3]).1.length = (splitChannels [1, 2, 3]).2.length + 1 :=
  ⟨(C3_split_even_odd [1, 2, 3]).1 0,
   ((C3_split_even_odd [1, 2, 3]).2.2 (by decide) 3 (by decide)).1,
   ((C3_split_even_odd [1, 2, 3]).2.2 (by decide) 3 (by decide)).2⟩

/-- Claim C3, counterexample to the claim as stated: on the odd-length
buffer [1, 2, 3] the trailing sample 3 is not dropped — it appears in the
left channel passed to the codec. -/
theorem C3_trailing_not_dropped :
    splitChannels [1, 2, 3] = ([1, 3], [2]) ∧
    (3 : Int) ∈ (splitChannels [1, 2, 3]).1 := by decide

/-- Pointwise, the source's keep-condition for a character is the predicate
"ASCII, not a control character, not an invalid character": the UTF-8
length-1 test is equivalent to the ASCII test. -/
theorem sanitize_pred_eq (c : Char) :
    (!(invalidChars.contains c) && isAsciiChar c && !(isControlChar c)
        && (lenUtf8 c == 1))
      = (decide (c.toNat ≤ 127) && !(isControlChar c)
        && !(invalidChars.contains c)) := by
  by_cases h : c.toNat ≤ 127
  · have h1 : isAsciiChar c = true := by simp [isAsciiChar, h]
    have h2 : lenUtf8 c = 1 := by
      simp only [lenUtf8]
      rw [if_pos]
      omega
    simp only [h1, h2, h, decide_True]
    cases invalidChars.contains c <;> cases isControlChar c <;> rfl
  · have h1 : isAsciiChar c = false := by simp [isAsciiChar, h]
    simp only [h1, h, decide_False]
    cases invalidChars.contains c <;> cases isControlChar c <;> rfl

/-- Claim C10 (confirmed): make_filename_compatible returns exactly the
subsequence of characters that are ASCII, not control characters and not in
the invalid set; every non-ASCII character is removed, so an input of only
non-ASCII characters yields the empty name. -/
theorem C10_sanitize_filter (l : Str) :
    make_filename_compatible l
      = l.filter (fun c => decide (c.toNat ≤ 127) && !(isControlChar c)
          && !(invalidChars.contains c)) ∧
    ((∀ c ∈ l, 127 < c.toNat) → make_filename_compatible l = []) := by
  constructor
  · exact List.filter_congr (fun c _ => sanitize_pred_eq c)
  · intro h
    show l.filter _ = []
    rw [List.filter_congr (fun c _ => sanitize_pred_eq c)]
    rw [List.filter_eq_nil_iff]
    intro c hc
    have := h c hc
    simp only [Bool.and_eq_true, decide_eq_true_eq]
    intro hcon
    omega

/-- Claim C10, witness: a name of two non-ASCII characters (codes 233 and
960) sanitizes to the empty name. -/
theorem C10_sanitize_filter_witness :
    make_filename_compatible [Char.ofNat 233, Char.ofNat 960] = [] :=
  (C10_sanitize_filter [Char.ofNat 233, Char.ofNat 960]).2 (by decide)

/-- Claim C4 (confirmed): the existence check reports true exactly when some
directory entry's stem (extension ignored) equals the computed base name;
in particular a track.wav entry matches the base of track.mp3, so the mp3
download is skipped.  The check never looks at contents or extensions. -/
theorem C4_existence_guard (entries : List Str) (base : Str) :
    (fileExists entries base = true ↔ ∃ e ∈ entries, file_stem e = base) ∧
    fileExists [['t', 'r', 'a', 'c', 'k', '.', 'w', 'a', 'v']]
      (file_stem ['t', 'r', 'a', 'c', 'k', '.', 'm', 'p', '3']) = true := by
  constructor
  · simp [fileExists, List.any_eq_true]
  · decide

/-- Claim C5 (confirmed): with cleanup enabled the reconciler deletes
exactly the entries whose extension is in the mp3/flac/wav/ogg allow-list
and whose stem is not in the run's set; entries with other or missing
extensions are untouched.  On entries a.mp3, b.flac, c.txt with run set
containing only a, the pass deletes b.flac and keeps a.mp3 and c.txt. -/
theorem C5_reconciler_deletes (entries all_files : List Str) :
    (∀ e, e ∈ (reconcile entries all_files).2 ↔
      e ∈ entries ∧ recognizedAudioExt (path_extension e) = true
        ∧ file_stem e ∉ all_files) ∧
    reconcile
        [['a', '.', 'm', 'p', '3'], ['b', '.', 'f', 'l', 'a', 'c'],
          ['c', '.', 't', 'x', 't']] [['a']]
      = ([['a', '.', 'm', 'p', '3'], ['c', '.', 't', 'x', 't']],
         [['b', '.', 'f', 'l', 'a', 'c']]) := by
  constructor
  · intro e
    simp [reconcile, List.mem_filter, shouldDelete, List.any_eq_true]
    aesop
  · decide

/-- The accumulated all_files of the download loop is exactly one stem per
processed track, in order, whether the track is downloaded or skipped. -/
theorem processTracks_fst (files : List Str) :
    ∀ entries, (processTracks files entries).1 = files.map file_stem := by
  induction files with
  | nil => intro entries; rfl
  | cons f rest ih => intro entries; simp [processTracks, ih]

/-- The download loop never removes a pre-existing directory entry. -/
theorem processTracks_keeps (files : List Str) :
    ∀ entries e, e ∈ entries → e ∈ (processTracks files entries).2 := by
  induction files with
  | nil => intro entries e he; simpa [processTracks] using he
  | cons f rest ih =>
      intro entries e he
      show e ∈ (processTracks rest
        (if fileExists entries (file_stem f) = true then entries
          else entries ++ [f])).2
      apply ih
      by_cases h : fileExists entries (file_stem f) = true
      · rw [if_pos h]
        exact he
      · rw [if_neg h]
        exact List.mem_append_left _ he

/-- Claim C6 (confirmed): every processed track contributes exactly one base
name to the run's accumulated set, downloaded or skipped; pre-existing
entries survive the loop, an entry whose stem matches a processed track's
stem is never marked for deletion, and an unmarked entry is kept by the
reconciliation pass. -/
theorem C6_one_entry_per_track (files entries : List Str) :
    (processTracks files entries).1 = files.map file_stem ∧
    (∀ e, e ∈ entries → e ∈ (processTracks files entries).2) ∧
    (∀ e f, f ∈ files → file_stem e = file_stem f →
      shouldDelete (processTracks files entries).1 e = false) ∧
    (∀ e, e ∈ (processTracks files entries).2 →
      shouldDelete (processTracks files entries).1 e = false →
      e ∈ (reconcile (processTracks files entries).2
            (processTracks files entries).1).1) := by
  refine ⟨processTracks_fst files entries,
    fun e he => processTracks_keeps files entries e he, ?_, ?_⟩
  · intro e f hf hstem
    rw [processTracks_fst]
    have hmem : file_stem f ∈ files.map file_stem := List.mem_map_of_mem _ hf
    have hany : (files.map file_stem).any (fun s => s == file_stem e) = true :=
      List.any_eq_true.mpr ⟨file_stem f, hmem, by simp [hstem]⟩
    simp [shouldDelete, hany]
  · intro e he hsd
    simp only [reconcile]
    rw [List.mem_filter]
    exact ⟨he, by simp [hsd]⟩

/-- Claim C6, witness: a run over the single track t.mp3 against a directory
already holding t.wav accumulates exactly the stem t, and the skipped
track's existing file t.wav is not marked for deletion. -/
theorem C6_one_entry_per_track_witness :
    (processTracks [['t', '.', 'm', 'p', '3']] [['t', '.', 'w', 'a', 'v']]).1
      = [['t', '.', 'm', 'p', '3']].map file_stem ∧
    shouldDelete (processTracks [['t', '.', 'm', 'p', '3']]
        [['t', '.', 'w', 'a', 'v']]).1 ['t', '.', 'w', 'a', 'v'] = false :=
  ⟨(C6_one_entry_per_track [['t', '.', 'm', 'p', '3']] [['t', '.', 'w', 'a', 'v']]).1,
   (C6_one_entry_per_track [['t', '.', 'm', 'p', '3']] [['t', '.', 'w', 'a', 'v']]).2.2.1
     ['t', '.', 'w', 'a', 'v'] ['t', '.', 'm', 'p', '3'] (by decide) (by decide)⟩

/-- After an atomic commit the destination path holds exactly the committed
bytes, whatever was there before. -/
theorem lookupFile_setFile (fs : FS) (p : Str) (d : List Nat) :
    lookupFile (setFile fs p d) p = some d := by
  induction fs with
  | nil => simp [setFile, lookupFile]
  | cons hd rest ih =>
      obtain ⟨q, old⟩ := hd
      by_cases h : q = p
      · simp [setFile, lookupFile, h]
      · simp [setFile, lookupFile, h, ih]

/-- Claim C1 (confirmed): when the codec succeeds, finalize commits the
concatenated encode-plus-flush buffer atomically to the sink path,
overwriting whatever was there; when the underlying write fails, the
filesystem (and so the destination's prior contents) is unchanged and the
caller receives an OnWrite error carrying the underlying cause — no partial
file is ever visible. -/
theorem C1_atomic_commit (fs : FS) (s : FileSinkMP3) (c : MP3Codec)
    (encoded flushed : List Nat)
    (hok : allBuildOk c = true)
    (he : c.encode (encoderConfigOf s) (splitChannels s.content).1
        (splitChannels s.content).2 = some encoded)
    (hf : c.flushNoGap = some flushed) :
    FileSinkMP3.stop s c none fs
      = (RustResult.ok (), setFile fs s.sink (encoded ++ flushed)) ∧
    lookupFile (setFile fs s.sink (encoded ++ flushed)) s.sink
      = some (encoded ++ flushed) ∧
    (∀ cause, FileSinkMP3.stop s c (some cause) fs
      = (RustResult.err (SinkError.onWrite cause), fs)) := by
  simp only [allBuildOk, Bool.and_eq_true] at hok
  obtain ⟨⟨⟨⟨⟨h1, h2⟩, h3⟩, h4⟩, h5⟩, h6⟩ := hok
  refine ⟨?_, lookupFile_setFile fs s.sink (encoded ++ flushed), fun cause => ?_⟩
  · simp [FileSinkMP3.stop, h1, h2, h3, h4, h5, h6, he, hf, atomicWrite]
  · simp [FileSinkMP3.stop, h1, h2, h3, h4, h5, h6, he, hf, atomicWrite]

/-- Claim C1, witness: committing bytes 10 then 20 over a prior file with
contents 9 replaces it; a failing write with cause 7 leaves the prior file
and returns OnWrite 7. -/
theorem C1_atomic_commit_witness :
    FileSinkMP3.stop ⟨['p'], [1, 2], none, 4⟩
        ⟨true, true, true, true, true, true, fun _ _ _ => some [10], some [20]⟩
        none [(['p'], [9])]
      = (RustResult.ok (), [(['p'], [10, 20])]) ∧
    lookupFile [(['p'], [10, 20])] ['p'] = some [10, 20] ∧
    FileSinkMP3.stop ⟨['p'], [1, 2], none, 4⟩
        ⟨true, true, true, true, true, true, fun _ _ _ => some [10], some [20]⟩
        (some 7) [(['p'], [9])]
      = (RustResult.err (SinkError.onWrite 7), [(['p'], [9])]) := by
  have h := C1_atomic_commit [(['p'], [9])] ⟨['p'], [1, 2], none, 4⟩
    ⟨true, true, true, true, true, true, fun _ _ _ => some [10], some [20]⟩
    [10] [20] rfl rfl rfl
  exact ⟨h.1, h.2.1, h.2.2 7⟩

/-- Claim C2 (corrected): a builder-initialization failure, an encode
failure or a flush failure during finalize each makes finalize panic with
its own distinct message — the track is not silently skipped and the
filesystem is untouched, so no partial output file is left — but the
failure propagates as a panic, not as a returned error value. -/
theorem C2_encode_failure_panics (s : FileSinkMP3) (c : MP3Codec)
    (io : Option IOCause) (fs : FS) :
    (c.builderOk = false →
      FileSinkMP3.stop s c io fs
        = (RustResult.panicked PanicMsg.createLameBuilder, fs)) ∧
    (allBuildOk c = true →
      c.encode (encoderConfigOf s) (splitChannels s.content).1
          (splitChannels s.content).2 = none →
      FileSinkMP3.stop s c io fs = (RustResult.panicked PanicMsg.toEncode, fs)) ∧
    (allBuildOk c = true → ∀ encoded,
      c.encode (encoderConfigOf s) (splitChannels s.content).1
          (splitChannels s.content).2 = some encoded →
      c.flushNoGap = none →
      FileSinkMP3.stop s c io fs = (RustResult.panicked PanicMsg.toFlush, fs)) ∧
    (PanicMsg.createLameBuilder ≠ PanicMsg.toEncode ∧
      PanicMsg.createLameBuilder ≠ PanicMsg.toFlush ∧
      PanicMsg.toEncode ≠ PanicMsg.toFlush) := by
  refine ⟨fun hb => by simp [FileSinkMP3.stop, hb], ?_, ?_, by decide⟩
  · intro hok he
    simp only [allBuildOk, Bool.and_eq_true] at hok
    obtain ⟨⟨⟨⟨⟨h1, h2⟩, h3⟩, h4⟩, h5⟩, h6⟩ := hok
    simp [FileSinkMP3.stop, h1, h2, h3, h4, h5, h6, he]
  · intro hok encoded he hf
    simp only [allBuildOk, Bool.and_eq_true] at hok
    obtain ⟨⟨⟨⟨⟨h1, h2⟩, h3⟩, h4⟩, h5⟩, h6⟩ := hok
    simp [FileSinkMP3.stop, h1, h2, h3, h4, h5, h6, he, hf]

/-- Claim C2, witness: concrete runs hitting the builder, encode and flush
failure sites produce the three distinct panics with the filesystem
untouched. -/
theorem C2_encode_failure_panics_witness :
    FileSinkMP3.stop ⟨['p'], [1, 2], none, 4⟩
        ⟨false, true, true, true, true, true, fun _ _ _ => some [], some []⟩ none []
      = (RustResult.panicked PanicMsg.createLameBuilder, []) ∧
    FileSinkMP3.stop ⟨['p'], [1, 2], none, 4⟩
        ⟨true, true, true, true, true, true, fun _ _ _ => none, some []⟩ none []
      = (RustResult.panicked PanicMsg.toEncode, []) ∧
    FileSinkMP3.stop ⟨['p'], [1, 2], none, 4⟩
        ⟨true, true, true, true, true, true, fun _ _ _ => some [5], none⟩ none []
      = (RustResult.panicked PanicMsg.toFlush, []) :=
  ⟨(C2_encode_failure_panics ⟨['p'], [1, 2], none, 4⟩
      ⟨false, true, true, true, true, true, fun _ _ _ => some [], some []⟩ none []).1 rfl,
   (C2_encode_failure_panics ⟨['p'], [1, 2], none, 4⟩
      ⟨true, true, true, true, true, true, fun _ _ _ => none, some []⟩ none []).2.1 rfl rfl,
   (C2_encode_failure_panics ⟨['p'], [1, 2], none, 4⟩
      ⟨true, true, true, true, true, true, fun _ _ _ => some [5], none⟩ none []).2.2.1
      rfl [5] rfl rfl⟩

/-- Claim C2, counterexample to the claim as stated: on a concrete sink
whose encode call fails, finalize panics — its outcome is not a returned
error of any kind, so finalize does not return a distinct encode error to
its caller. -/
theorem C2_no_error_returned :
    (FileSinkMP3.stop ⟨['p'], [1, 2], none, 4⟩
        ⟨true, true, true, true, true, true, fun _ _ _ => none, some []⟩ none []).1
      = RustResult.panicked PanicMsg.toEncode ∧
    ∀ e : SinkError,
      (FileSinkMP3.stop ⟨['p'], [1, 2], none, 4⟩
          ⟨true, true, true, true, true, true, fun _ _ _ => none, some []⟩ none []).1
        ≠ RustResult.err e := by
  refine ⟨rfl, fun e h => ?_⟩
  rw [show (FileSinkMP3.stop ⟨['p'], [1, 2], none, 4⟩
      ⟨true, true, true, true, true, true, fun _ _ _ => none, some []⟩ none []).1
    = RustResult.panicked PanicMsg.toEncode from rfl] at h
  exact RustResult.noConfusion h

/-- Claim C7 (confirmed): with metadata present the codec configuration
embeds the track name as title, the artists joined with a comma and a space
as a single artist tag and the album as album, with empty year and comment;
with no metadata attached, no tag is embedded. -/
theorem C7_id3_tags (s : FileSinkMP3) (m : TrackMetadata) :
    (s.metadata = some m → (encoderConfigOf s).id3
      = some ⟨m.track_name, joinSep [',', ' '] m.artists, m.album, [], []⟩) ∧
    (s.metadata = none → (encoderConfigOf s).id3 = none) ∧
    joinSep [',', ' '] [['X'], ['Y']] = ['X', ',', ' ', 'Y'] := by
  refine ⟨fun h => ?_, fun h => ?_, by decide⟩
  · simp [encoderConfigOf, h]
  · simp [encoderConfigOf, h]

/-- Claim C7, witness: metadata with artists X and Y, track name T and album
Al yields exactly the tags T, X-comma-space-Y, Al with empty year and
comment; a sink without metadata yields no tag. -/
theorem C7_id3_tags_witness :
    (encoderConfigOf ⟨['p'], [], some ⟨[['X'], ['Y']], ['T'], ['A', 'l']⟩, 4⟩).id3
      = some ⟨['T'], ['X', ',', ' ', 'Y'], ['A', 'l'], [], []⟩ ∧
    (encoderConfigOf ⟨['p'], [], none, 4⟩).id3 = none :=
  ⟨(C7_id3_tags ⟨['p'], [], some ⟨[['X'], ['Y']], ['T'], ['A', 'l']⟩, 4⟩
      ⟨[['X'], ['Y']], ['T'], ['A', 'l']⟩).1 rfl,
   (C7_id3_tags ⟨['p'], [], none, 4⟩ ⟨[], [], []⟩).2.1 rfl⟩

/-- Claim C8 (corrected): set_compression stores the caller's selection and
open defaults it to 4, but the configuration used at finalize is fixed —
stereo, 44100 Hz, 192 kbps, best quality — for every sink, independent of
the stored selection. -/
theorem C8_fixed_config (p : Str) (s : FileSinkMP3) (n : Nat) :
    FileSinkMP3.openSink (some p) = RustResult.ok ⟨p, [], none, 4⟩ ∧
    (FileSinkMP3.set_compression s n).compression = n ∧
    (encoderConfigOf s).numChannels = 2 ∧
    (encoderConfigOf s).sampleRate = 44100 ∧
    (encoderConfigOf s).brateKbps = 192 ∧
    (encoderConfigOf s).quality = 0 :=
  ⟨rfl, rfl, rfl, rfl, rfl, rfl⟩

/-- Claim C8, counterexample to the claim as stated: selecting compression 9
is stored on the sink, yet the finalize-time codec configuration is
identical to the one for the default selection 4 — the selected value never
reaches the codec, whose bitrate and quality stay 192 kbps and best. -/
theorem C8_compression_ignored :
    encoderConfigOf (FileSinkMP3.set_compression ⟨['p'], [], none, 4⟩ 9)
      = encoderConfigOf (FileSinkMP3.set_compression ⟨['p'], [], none, 4⟩ 4) ∧
    (FileSinkMP3.set_compression ⟨['p'], [], none, 4⟩ 9).compression = 9 ∧
    (encoderConfigOf (FileSinkMP3.set_compression ⟨['p'], [], none, 4⟩ 9)).brateKbps
      = 192 ∧
    (encoderConfigOf (FileSinkMP3.set_compression ⟨['p'], [], none, 4⟩ 9)).quality
      = 0 := by decide

/-- Claim C9 (corrected): for every decoded samples packet, write appends
the converted samples to the end of the buffer and returns success, and
write never returns an error for any packet; but a raw passthrough packet
makes write panic on the samples unwrap instead of succeeding. -/
theorem C9_write_appends (s : FileSinkMP3) (d : List Rat) (cv : Converter)
    (p : AudioPacket) :
    FileSinkMP3.write s (AudioPacket.samples d) cv
      = RustResult.ok ⟨s.sink, s.content ++ cv.f64_to_s16 d, s.metadata,
          s.compression⟩ ∧
    (∀ e, FileSinkMP3.write s p cv ≠ RustResult.err e) := by
  refine ⟨rfl, fun e h => ?_⟩
  cases p with
  | samples d2 => exact RustResult.noConfusion h
  | raw d2 => exact RustResult.noConfusion h

/-- Claim C9, counterexample to the claim as stated: on a concrete raw
packet, write panics rather than appending and returning success. -/
theorem C9_raw_packet_panics :
    FileSinkMP3.write ⟨[], [], none, 4⟩ (AudioPacket.raw []) ⟨fun _ => []⟩
      = RustResult.panicked PanicMsg.packetSamplesUnwrap ∧
    ∀ s2, FileSinkMP3.write ⟨[], [], none, 4⟩ (AudioPacket.raw []) ⟨fun _ => []⟩
      ≠ RustResult.ok s2 := by
  refine ⟨rfl, fun s2 h => ?_⟩
  rw [show FileSinkMP3.write ⟨[], [], none, 4⟩ (AudioPacket.raw []) ⟨fun _ => []⟩
    = RustResult.panicked PanicMsg.packetSamplesUnwrap from rfl] at h
  exact RustResult.noConfusion h

/-- Claim C4, witness: instantiating the guard characterization — an
existing track.wav makes the check report true for the mp3 base name. -/
theorem C4_existence_guard_witness :
    fileExists [['t', 'r', 'a', 'c', 'k', '.', 'w', 'a', 'v']]
      (file_stem ['t', 'r', 'a', 'c', 'k', '.', 'm', 'p', '3']) = true :=
  (C4_existence_guard [['t', 'r', 'a', 'c', 'k', '.', 'w', 'a', 'v']]
    (file_stem ['t', 'r', 'a', 'c', 'k', '.', 'm', 'p', '3'])).2

/-- Claim C5, witness: the concrete reconciliation of a.mp3, b.flac, c.txt
against the run set containing only a. -/
theorem C5_reconciler_deletes_witness :
    reconcile
        [['a', '.', 'm', 'p', '3'], ['b', '.', 'f', 'l', 'a', 'c'],
          ['c', '.', 't', 'x', 't']] [['a']]
      = ([['a', '.', 'm', 'p', '3'], ['c', '.', 't', 'x', 't']],
         [['b', '.', 'f', 'l', 'a', 'c']]) :=
  (C5_reconciler_deletes [] []).2

/-- Claim C8, witness: the amended configuration facts at a concrete sink
with selection 7. -/
theorem C8_fixed_config_witness :
    FileSinkMP3.openSink (some ['p']) = RustResult.ok ⟨['p'], [], none, 4⟩ ∧
    (FileSinkMP3.set_compression ⟨['p'], [], none, 4⟩ 7).compression = 7 ∧
    (encoderConfigOf ⟨['p'], [], none, 4⟩).brateKbps = 192 :=
  ⟨(C8_fixed_config ['p'] ⟨['p'], [], none, 4⟩ 7).1,
   (C8_fixed_config ['p'] ⟨['p'], [], none, 4⟩ 7).2.1,
   (C8_fixed_config ['p'] ⟨['p'], [], none, 4⟩ 7).2.2.2.2.1⟩

/-- Claim C9, witness: a concrete samples packet is appended and returns
success, and a concrete packet never yields a returned error. -/
theorem C9_write_appends_witness :
    FileSinkMP3.write ⟨[], [5], none, 4⟩ (AudioPacket.samples []) ⟨fun _ => [6]⟩
      = RustResult.ok ⟨[], [5, 6], none, 4⟩ ∧
    FileSinkMP3.write ⟨[], [5], none, 4⟩ (AudioPacket.samples []) ⟨fun _ => [6]⟩
      ≠ RustResult.err (SinkError.onWrite 0) :=
  ⟨(C9_write_appends ⟨[], [5], none, 4⟩ [] ⟨fun _ => [6]⟩
      (AudioPacket.samples [])).1,
   (C9_write_appends ⟨[], [5], none, 4⟩ [] ⟨fun _ => [6]⟩
      (AudioPacket.samples [])).2 (SinkError.onWrite 0)⟩
